import Mathlib

/-!
Shallow embedding of the strobed-display / deflicker / keypad logic of the two
MAME drivers `intellect02.cpp` (state class `intel02_state`) and `mk1.cpp`
(state class `mk1_state`).  Bytes are `Nat` values; time is in microseconds;
each one-shot `timer_device` is an `Option Nat` deadline.  Port writes and
timer firings are events of a step function; validity of an event (8-bit bus
value, monotone time, no event scheduled past a pending timer deadline) is a
separate decidable check, so that complete runs can be evaluated on concrete
inputs.
-/

/-- Value (0 or 1) of bit `i` of `n`: MAME's `BIT(n, i)` helper, used as the
branch conditions throughout both drivers.  The helper itself is MAME core
code that is not under `src/`. -/
def bitv (n i : Nat) : Nat := if n.testBit i then 1 else 0

/-- Modelled from the spec: MAME's core helper `bitswap<8>(v, b7, ..., b0)` is
not under `src/`.  Per the spec's "fixed bit-permutation ... documented per
variant as a literal bit-order table", result bit `k` takes source bit given by
the `k`-th index argument (arguments listed from bit 7 down to bit 0). -/
def bitswap8 (v b7 b6 b5 b4 b3 b2 b1 b0 : Nat) : Nat :=
  (bitv v b7) <<< 7 ||| (bitv v b6) <<< 6 ||| (bitv v b5) <<< 5 ||| (bitv v b4) <<< 4 |||
  (bitv v b3) <<< 3 ||| (bitv v b2) <<< 2 ||| (bitv v b1) <<< 1 ||| (bitv v b0)

/-- Modelled from the spec: MAME's core helper `count_leading_zeros` over a
32-bit value is not under `src/`.  For a nonzero value it counts the leading
zero bits (31 minus the index of the highest set bit); the spec asks for a
deterministic all-zero sentinel giving the max code, so the all-zero input
yields 32. -/
def count_leading_zeros (v : Nat) : Nat := if v = 0 then 32 else 31 - Nat.log2 v

/-- `t` does not run past an optional timer deadline. -/
def leOpt (t : Nat) : Option Nat → Bool
  | none => true
  | some dl => decide (t ≤ dl)

/-! ## intellect02 (`intel02_state`) -/

/-- Display/timer state of `intel02_state`: segment latch `m_digit_data`
(stored already decoded by `digit_w`), select byte `m_led_select`, hold mask
`m_led_active`, the four digit outputs and two led outputs, the six
`delay_display` one-shot timers and the coalescing `delay_update` timer. -/
structure I02State where
  time : Nat
  digit_data : Nat
  led_select : Nat
  led_active : Nat
  out_digit : Nat → Nat
  out_led : Nat → Nat
  dd : Nat → Option Nat
  du : Option Nat

/-- Events delivered to `intel02_state`: the two port writes (with the time at
which the CPU issues them), a `delay_display` timer firing, the `delay_update`
timer firing, and the reset button (tied directly to the CPU RESET pin). -/
inductive I02Ev where
  | ctrl (t d : Nat)
  | dig (t d : Nat)
  | fireDD (i : Nat)
  | fireDU
  | rstBtn (t : Nat)

/-- `intel02_state::update_display`: selected digits latch `m_digit_data`,
non-selected non-active digits are blanked, others keep their value; the two
leds mirror bits 4 and 5 of `m_led_active`. -/
def i02_update (s : I02State) : I02State :=
  { s with
    out_digit := fun i =>
      if i < 4 then
        (if s.led_select.testBit i then s.digit_data
         else if !(s.led_active.testBit i) then 0
         else s.out_digit i)
      else s.out_digit i
    out_led := fun j =>
      if j = 0 then bitv s.led_active 4
      else if j = 1 then bitv s.led_active 5
      else s.out_led j }

/-- One iteration of the loop in `intel02_state::control_w`: a set data bit
sets the active-mask bit; on a falling edge of a previously selected bit the
digit's `delay_display` timer is armed 25ms (25000us) ahead. -/
def i02_ctrlStep (sel t d : Nat) (acc : Nat × (Nat → Option Nat)) (i : Nat) :
    Nat × (Nat → Option Nat) :=
  if d.testBit i then (acc.1 ||| (1 <<< i), acc.2)
  else if sel.testBit i then (acc.1, fun j => if j = i then some (t + 25000) else acc.2 j)
  else acc

/-- The `for (int i = 0; i < 6; i++)` loop of `intel02_state::control_w`,
reading the pre-write `m_led_select`. -/
def i02_ctrlLoop (s : I02State) (t d : Nat) : Nat × (Nat → Option Nat) :=
  (List.range 6).foldl (i02_ctrlStep s.led_select t d) (s.led_active, s.dd)

/-- One step of `intel02_state` on an event (the handlers `control_w`,
`digit_w`, `delay_display`, `delay_update`, `reset_button`). -/
def i02_step (s : I02State) (e : I02Ev) : I02State :=
  match e with
  | .ctrl t d =>
      let p := i02_ctrlLoop s t d
      { s with time := t, led_active := p.1, dd := p.2, led_select := d
               du := (match s.du with | none => some (t + 15) | some dl => some dl) }
  | .dig t d =>
      i02_update { s with time := t, digit_data := bitswap8 d 7 0 1 2 3 4 5 6 }
  | .fireDD i =>
      match s.dd i with
      | none => s
      | some dl =>
          i02_update { s with
            time := dl
            dd := fun j => if j = i then none else s.dd j
            led_active := (s.led_active &&& (255 ^^^ (1 <<< i))) ||| (s.led_select &&& (1 <<< i)) }
  | .fireDU =>
      match s.du with
      | none => s
      | some dl => i02_update { s with time := dl, du := none }
  | .rstBtn t => { s with time := t }

/-- No pending `intel02` timer deadline lies strictly before `t`. -/
def i02_pend (t : Nat) (s : I02State) : Bool :=
  ((List.range 6).all fun i => leOpt t (s.dd i)) && leOpt t s.du

/-- Validity of an `intel02` event: byte-wide bus values, monotone time, no
event past a pending deadline, and a timer can fire only while armed. -/
def i02_okB (s : I02State) (e : I02Ev) : Bool :=
  match e with
  | .ctrl t d => decide (s.time ≤ t) && i02_pend t s && decide (d < 256)
  | .dig t d => decide (s.time ≤ t) && i02_pend t s && decide (d < 256)
  | .fireDD i =>
      decide (i < 6) &&
      match s.dd i with
      | none => false
      | some dl => decide (s.time ≤ dl) && i02_pend dl s
  | .fireDU =>
      match s.du with
      | none => false
      | some dl => decide (s.time ≤ dl) && i02_pend dl s
  | .rstBtn t => decide (s.time ≤ t) && i02_pend t s

/-- Zero-initialized `intel02` state (`machine_start` zerofill, timers idle). -/
def i02_init : I02State :=
  { time := 0, digit_data := 0, led_select := 0, led_active := 0
    out_digit := fun _ => 0, out_led := fun _ => 0, dd := fun _ => none, du := none }

/-- Run a list of `intel02` events. -/
def i02_run (s : I02State) (evs : List I02Ev) : I02State := evs.foldl i02_step s

/-- All events of an `intel02` run are valid in sequence. -/
def i02_runOk (s : I02State) : List I02Ev → Bool
  | [] => true
  | e :: r => i02_okB s e && i02_runOk (i02_step s e) r

/-- `intel02_state::input_r`: priority scancode of the button bitfield (a u8
subtraction, hence the mod-256 wrap) OR'd with the inverted direct lines
shifted into the high nibble. -/
def i02_input_r (k0 k1 : Nat) : Nat :=
  ((count_leading_zeros k0 + 239) % 256) ||| (((k1 ^^^ 0xffffffff) <<< 4) &&& 0xf0)

/-- An `intel02` event keeps digit/led line `i` selected (a control write must
carry bit `i`; other events do not touch the select mask). -/
def i02_keepsSel (i : Nat) : I02Ev → Bool
  | .ctrl _ d => d.testBit i
  | _ => true

/-- An `intel02` event keeps line `i` deselected and is not line `i`'s own
deflicker-timer firing. -/
def i02_keepsDesel (i : Nat) : I02Ev → Bool
  | .ctrl _ d => !(d.testBit i)
  | .fireDD j => decide (j ≠ i)
  | _ => true

/-- Hold invariant for `intel02` digit `i`: selected, and its output shows the
latched (decoded) segment data. -/
def i02_holds (i : Nat) (s : I02State) : Prop :=
  s.led_select.testBit i = true ∧ s.out_digit i = s.digit_data

/-- Armed deflicker state for `intel02` line `i` with deadline `D`:
deselected, still in the active mask, timer pending at `D`, time not past `D`. -/
def i02_armed (i D : Nat) (s : I02State) : Prop :=
  s.led_select.testBit i = false ∧ s.led_active.testBit i = true ∧
  s.dd i = some D ∧ s.time ≤ D

/-! ## mk1 / cmpchess (`mk1_state`) -/

/-- Display/timer state of `mk1_state`: active-low select byte
`m_digit_select`, raw segment latch `m_digit_data` (also the input mux), blink
phase, four digit outputs and four `delay_display` one-shot timers. -/
structure MK1State where
  time : Nat
  digit_select : Nat
  digit_data : Nat
  blink : Bool
  out_digit : Nat → Nat
  dd : Nat → Option Nat

/-- Events delivered to `mk1_state`: the two port writes, a `delay_display`
timer firing, a blink-phase toggle, and the reset switch going active. -/
inductive MK1Ev where
  | dataW (t d : Nat)
  | selW (t d : Nat)
  | fireDD (i : Nat)
  | blinkT (t : Nat)
  | rstOn (t : Nat)

/-- The decoded value an active mk1 digit displays
(`mk1_state::update_display` body): permuted segment data masked by the
dot-only / blink special cases. -/
def mk1_decode (data : Nat) (blink : Bool) : Nat :=
  let mask := if data = 1 then 0x80 else 0x7f
  let mask := if blink && data.testBit 0 then 0 else mask
  bitswap8 data 0 2 1 3 4 5 6 7 &&& mask

/-- `mk1_state::update_display`: digits whose (active-low) select bit is clear
show the decoded data; others keep their value. -/
def mk1_update (s : MK1State) : MK1State :=
  { s with out_digit := fun i =>
      if i < 4 then
        (if !(s.digit_select.testBit i) then mk1_decode s.digit_data s.blink
         else s.out_digit i)
      else s.out_digit i }

/-- One iteration of the loop in `mk1_state::digit_select_w`: on a rising edge
(`BIT(~m_digit_select & data, i)`, the digit going inactive) arm that digit's
`delay_display` timer 20ms (20000us) ahead. -/
def mk1_selStep (sel t d : Nat) (dd : Nat → Option Nat) (i : Nat) : Nat → Option Nat :=
  if !(sel.testBit i) && d.testBit i then
    fun j => if j = i then some (t + 20000) else dd j
  else dd

/-- One step of `mk1_state` on an event (the handlers `digit_data_w`,
`digit_select_w`, `delay_display`, `blink`, `reset_switch` with newval set). -/
def mk1_step (s : MK1State) (e : MK1Ev) : MK1State :=
  match e with
  | .dataW t d => mk1_update { s with time := t, digit_data := d }
  | .selW t d =>
      mk1_update { s with
        time := t
        digit_select := d
        dd := (List.range 4).foldl (mk1_selStep s.digit_select t d) s.dd }
  | .fireDD i =>
      match s.dd i with
      | none => s
      | some dl =>
          let s' := { s with time := dl, dd := fun j => if j = i then none else s.dd j }
          if s.digit_select.testBit i then
            { s' with out_digit := fun j => if j = i then 0 else s'.out_digit j }
          else s'
  | .blinkT t => mk1_update { s with time := t, blink := !s.blink }
  | .rstOn t =>
      { s with time := t, digit_select := 0xff
               out_digit := fun i => if i < 4 then 0 else s.out_digit i }

/-- No pending `mk1` timer deadline lies strictly before `t`. -/
def mk1_pend (t : Nat) (s : MK1State) : Bool :=
  (List.range 4).all fun i => leOpt t (s.dd i)

/-- Validity of an `mk1` event. -/
def mk1_okB (s : MK1State) (e : MK1Ev) : Bool :=
  match e with
  | .dataW t d => decide (s.time ≤ t) && mk1_pend t s && decide (d < 256)
  | .selW t d => decide (s.time ≤ t) && mk1_pend t s && decide (d < 256)
  | .fireDD i =>
      decide (i < 4) &&
      match s.dd i with
      | none => false
      | some dl => decide (s.time ≤ dl) && mk1_pend dl s
  | .blinkT t => decide (s.time ≤ t) && mk1_pend t s
  | .rstOn t => decide (s.time ≤ t) && mk1_pend t s

/-- Zero-initialized `mk1` state (`machine_start` zerofill, timers idle). -/
def mk1_init : MK1State :=
  { time := 0, digit_select := 0, digit_data := 0, blink := false
    out_digit := fun _ => 0, dd := fun _ => none }

/-- Run a list of `mk1` events. -/
def mk1_run (s : MK1State) (evs : List MK1Ev) : MK1State := evs.foldl mk1_step s

/-- All events of an `mk1` run are valid in sequence. -/
def mk1_runOk (s : MK1State) : List MK1Ev → Bool
  | [] => true
  | e :: r => mk1_okB s e && mk1_runOk (mk1_step s e) r

/-- `mk1_state::input_r`: starts from the last written data byte; a low bit is
OR'd in for each key line intersecting the data byte, and each key line whose
index bit is set in the data byte is OR'd into the high nibble. -/
def mk1_input_r (data : Nat) (key : Nat → Nat) : Nat :=
  let d1 := (List.range 4).foldl
    (fun acc i => if data &&& key i ≠ 0 then acc ||| (1 <<< i) else acc) data
  (List.range 4).foldl (fun acc i => if data.testBit i then acc ||| key i else acc) d1

/-- An `mk1` event keeps digit `i` selected (active low: a select write must
keep bit `i` clear; reset deselects everything). -/
def mk1_keepsSel (i : Nat) : MK1Ev → Bool
  | .selW _ d => !(d.testBit i)
  | .rstOn _ => false
  | _ => true

/-- An `mk1` event keeps digit `i` deselected, is not digit `i`'s own
deflicker-timer firing, and is not a reset (which blanks early by design). -/
def mk1_keepsDesel (i : Nat) : MK1Ev → Bool
  | .selW _ d => d.testBit i
  | .fireDD j => decide (j ≠ i)
  | .rstOn _ => false
  | _ => true

/-- An `mk1` event is a data-port write. -/
def mk1_isDataW : MK1Ev → Bool
  | .dataW _ _ => true
  | _ => false

/-- Hold invariant for `mk1` digit `i`: selected (active-low bit clear) and
showing the decoded current data under the current blink phase. -/
def mk1_holds (i : Nat) (s : MK1State) : Prop :=
  s.digit_select.testBit i = false ∧ s.out_digit i = mk1_decode s.digit_data s.blink

/-- Armed deflicker state for `mk1` digit `i` with deadline `D`. -/
def mk1_armed (i D : Nat) (s : MK1State) : Prop :=
  s.digit_select.testBit i = true ∧ s.dd i = some D ∧ s.time ≤ D

/-! ## Generic bit-level lemmas -/

theorem testBit_shl1 (i j : Nat) : ((1 <<< i) : Nat).testBit j = decide (i = j) := by
  rw [Nat.shiftLeft_eq, one_mul, Nat.testBit_two_pow]

theorem testBit_255 (j : Nat) : (255 : Nat).testBit j = decide (j < 8) := by
  rw [show (255 : Nat) = 2 ^ 8 - 1 from rfl, Nat.testBit_two_pow_sub_one]

theorem testBit_15 (j : Nat) : (15 : Nat).testBit j = decide (j < 4) := by
  rw [show (15 : Nat) = 2 ^ 4 - 1 from rfl, Nat.testBit_two_pow_sub_one]

theorem land_eq_right (a d : Nat) (h : ∀ j, d.testBit j = true → a.testBit j = true) :
    a &&& d = d := by
  apply Nat.eq_of_testBit_eq
  intro j
  rw [Nat.testBit_land]
  cases hd : d.testBit j
  · simp
  · simp [h j hd]

/-! ## intellect02 helper lemmas -/

theorem i02_update_out (s : I02State) (i : Nat) (hi : i < 4) :
    (i02_update s).out_digit i =
      if s.led_select.testBit i then s.digit_data
      else if s.led_active.testBit i then s.out_digit i
      else 0 := by
  cases hs : s.led_select.testBit i <;> cases ha : s.led_active.testBit i <;>
    simp [i02_update, hi, hs, ha]

theorem i02_update_led0 (s : I02State) : (i02_update s).out_led 0 = bitv s.led_active 4 := by
  simp [i02_update]

theorem i02_update_led1 (s : I02State) : (i02_update s).out_led 1 = bitv s.led_active 5 := by
  simp [i02_update]

theorem i02_ctrlStep_fst (sel t d : Nat) (acc : Nat × (Nat → Option Nat)) (i : Nat) :
    (i02_ctrlStep sel t d acc i).1 = if d.testBit i then acc.1 ||| (1 <<< i) else acc.1 := by
  unfold i02_ctrlStep
  by_cases hd : d.testBit i
  · simp [hd]
  · by_cases hs : sel.testBit i <;> simp [hd, hs]

theorem i02_ctrlStep_snd (sel t d : Nat) (acc : Nat × (Nat → Option Nat)) (i j : Nat) :
    (i02_ctrlStep sel t d acc i).2 j =
      if d.testBit i = false ∧ sel.testBit i = true ∧ j = i then some (t + 25000)
      else acc.2 j := by
  unfold i02_ctrlStep
  by_cases hd : d.testBit i
  · simp [hd]
  · by_cases hs : sel.testBit i
    · by_cases hj : j = i <;> simp [hd, hs, hj]
    · simp [hd, hs]

theorem i02_ctrlFold_fst (sel t d : Nat) :
    ∀ (n : Nat) (acc : Nat × (Nat → Option Nat)) (j : Nat),
    (((List.range n).foldl (i02_ctrlStep sel t d) acc).1).testBit j
      = (acc.1.testBit j || (decide (j < n) && d.testBit j)) := by
  intro n
  induction n with
  | zero => intro acc j; simp
  | succ n ih =>
      intro acc j
      rw [List.range_succ, List.foldl_append]
      simp only [List.foldl_cons, List.foldl_nil]
      rw [i02_ctrlStep_fst]
      by_cases hd : d.testBit n
      · rw [if_pos hd]
        rw [Nat.testBit_lor, testBit_shl1, ih]
        by_cases hj : n = j
        · rw [hj] at hd
          simp [hj, hd]
        · have h1 : decide (n = j) = false := by simp [hj]
          have h2 : decide (j < n + 1) = decide (j < n) := by
            apply decide_eq_decide.mpr
            omega
          simp [h1, h2]
      · rw [if_neg hd, ih]
        by_cases hj : n = j
        · rw [hj] at hd
          have hd2 : d.testBit j = false := by
            cases h : d.testBit j
            · rfl
            · exact absurd h hd
          simp [hd2]
        · have h2 : decide (j < n + 1) = decide (j < n) := by
            apply decide_eq_decide.mpr
            omega
          rw [h2]

theorem i02_ctrlFold_snd (sel t d : Nat) :
    ∀ (n : Nat) (acc : Nat × (Nat → Option Nat)) (j : Nat),
    ((List.range n).foldl (i02_ctrlStep sel t d) acc).2 j
      = if j < n ∧ d.testBit j = false ∧ sel.testBit j = true then some (t + 25000)
        else acc.2 j := by
  intro n
  induction n with
  | zero => intro acc j; simp
  | succ n ih =>
      intro acc j
      rw [List.range_succ, List.foldl_append]
      simp only [List.foldl_cons, List.foldl_nil]
      rw [i02_ctrlStep_snd, ih]
      by_cases hj : j = n
      · subst hj
        by_cases hd : d.testBit j
        · simp [hd]
        · by_cases hs : sel.testBit j
          · simp [hd, hs]
          · simp [hd, hs]
      · have h2 : (j < n + 1 ∧ d.testBit j = false ∧ sel.testBit j = true)
            ↔ (j < n ∧ d.testBit j = false ∧ sel.testBit j = true) := by
          constructor
          · rintro ⟨h3, h4, h5⟩
            exact ⟨by omega, h4, h5⟩
          · rintro ⟨h3, h4, h5⟩
            exact ⟨by omega, h4, h5⟩
        have h3 : ¬(d.testBit n = false ∧ sel.testBit n = true ∧ j = n) := by
          rintro ⟨-, -, h4⟩
          exact hj h4
        rw [if_neg h3, if_congr h2 rfl rfl]

theorem i02_update_sel (s : I02State) : (i02_update s).led_select = s.led_select := rfl

theorem i02_update_act (s : I02State) : (i02_update s).led_active = s.led_active := rfl

theorem i02_update_data (s : I02State) : (i02_update s).digit_data = s.digit_data := rfl

theorem i02_update_dd (s : I02State) : (i02_update s).dd = s.dd := rfl

theorem i02_update_du (s : I02State) : (i02_update s).du = s.du := rfl

theorem i02_update_time (s : I02State) : (i02_update s).time = s.time := rfl

theorem i02_update_out_ge (s : I02State) (i : Nat) (hi : ¬ i < 4) :
    (i02_update s).out_digit i = s.out_digit i := by
  simp [i02_update, hi]

theorem i02_step_ctrl_sel (s : I02State) (t d : Nat) :
    (i02_step s (.ctrl t d)).led_select = d := rfl

theorem i02_step_ctrl_out (s : I02State) (t d : Nat) :
    (i02_step s (.ctrl t d)).out_digit = s.out_digit := rfl

theorem i02_step_ctrl_led (s : I02State) (t d : Nat) :
    (i02_step s (.ctrl t d)).out_led = s.out_led := rfl

theorem i02_step_ctrl_data (s : I02State) (t d : Nat) :
    (i02_step s (.ctrl t d)).digit_data = s.digit_data := rfl

theorem i02_step_ctrl_time (s : I02State) (t d : Nat) :
    (i02_step s (.ctrl t d)).time = t := rfl

theorem i02_step_ctrl_active (s : I02State) (t d j : Nat) :
    ((i02_step s (.ctrl t d)).led_active).testBit j
      = (s.led_active.testBit j || (decide (j < 6) && d.testBit j)) :=
  i02_ctrlFold_fst s.led_select t d 6 (s.led_active, s.dd) j

theorem i02_step_ctrl_dd (s : I02State) (t d j : Nat) :
    (i02_step s (.ctrl t d)).dd j
      = if j < 6 ∧ d.testBit j = false ∧ s.led_select.testBit j = true then some (t + 25000)
        else s.dd j :=
  i02_ctrlFold_snd s.led_select t d 6 (s.led_active, s.dd) j

theorem i02_pend_dd (t : Nat) (s : I02State) (i D : Nat) (h : i02_pend t s = true)
    (hi : i < 6) (hD : s.dd i = some D) : t ≤ D := by
  unfold i02_pend at h
  rw [Bool.and_eq_true] at h
  have h1 := h.1
  rw [List.all_eq_true] at h1
  have h2 := h1 i (List.mem_range.mpr hi)
  rw [hD] at h2
  simpa [leOpt] using h2

theorem i02_pend_du (t : Nat) (s : I02State) (D : Nat) (h : i02_pend t s = true)
    (hD : s.du = some D) : t ≤ D := by
  unfold i02_pend at h
  rw [Bool.and_eq_true] at h
  have h2 := h.2
  rw [hD] at h2
  simpa [leOpt] using h2

theorem i02_ok_ctrl (s : I02State) (t d : Nat) (h : i02_okB s (.ctrl t d) = true) :
    s.time ≤ t ∧ i02_pend t s = true ∧ d < 256 := by
  simp only [i02_okB, Bool.and_eq_true, decide_eq_true_eq] at h
  exact ⟨h.1.1, h.1.2, h.2⟩

theorem i02_ok_dig (s : I02State) (t d : Nat) (h : i02_okB s (.dig t d) = true) :
    s.time ≤ t ∧ i02_pend t s = true ∧ d < 256 := by
  simp only [i02_okB, Bool.and_eq_true, decide_eq_true_eq] at h
  exact ⟨h.1.1, h.1.2, h.2⟩

theorem i02_ok_rst (s : I02State) (t : Nat) (h : i02_okB s (.rstBtn t) = true) :
    s.time ≤ t ∧ i02_pend t s = true := by
  simp only [i02_okB, Bool.and_eq_true, decide_eq_true_eq] at h
  exact h

theorem i02_ok_fire (s : I02State) (i dl : Nat) (hD : s.dd i = some dl)
    (h : i02_okB s (.fireDD i) = true) :
    i < 6 ∧ s.time ≤ dl ∧ i02_pend dl s = true := by
  simp only [i02_okB, hD, Bool.and_eq_true, decide_eq_true_eq] at h
  exact ⟨h.1, h.2.1, h.2.2⟩

theorem i02_ok_fireDU (s : I02State) (dl : Nat) (hD : s.du = some dl)
    (h : i02_okB s (.fireDU) = true) :
    s.time ≤ dl ∧ i02_pend dl s = true := by
  simp only [i02_okB, hD, Bool.and_eq_true, decide_eq_true_eq] at h
  exact h

theorem i02_fire_active_bit (act sel : Nat) (i j : Nat) (hj : j < 8) :
    (((act &&& (255 ^^^ (1 <<< i))) ||| (sel &&& (1 <<< i)))).testBit j
      = if j = i then sel.testBit j else act.testBit j := by
  rw [Nat.testBit_lor, Nat.testBit_land, Nat.testBit_land, Nat.testBit_xor, testBit_255,
    testBit_shl1]
  by_cases hji : j = i
  · subst hji
    simp [hj]
  · have h1 : decide (i = j) = false := by
      simp only [decide_eq_false_iff_not]
      intro h2
      exact hji h2.symm
    have h2 : decide (j < 8) = true := by simpa using hj
    simp [h1, h2, hji]

theorem i02_holds_step (i : Nat) (hi : i < 4) (s : I02State) (e : I02Ev)
    (h : i02_holds i s) (hk : i02_keepsSel i e = true) : i02_holds i (i02_step s e) := by
  obtain ⟨hsel, hout⟩ := h
  cases e with
  | ctrl t d =>
      simp only [i02_keepsSel] at hk
      exact ⟨by rw [i02_step_ctrl_sel]; exact hk,
        by rw [i02_step_ctrl_out, i02_step_ctrl_data]; exact hout⟩
  | dig t d =>
      constructor
      · show (i02_update _).led_select.testBit i = true
        rw [i02_update_sel]
        exact hsel
      · show (i02_update _).out_digit i = (i02_update _).digit_data
        rw [i02_update_out _ i hi, i02_update_data]
        simp [hsel]
  | fireDD j =>
      cases hdj : s.dd j with
      | none =>
          simp only [i02_step, hdj]
          exact ⟨hsel, hout⟩
      | some dl =>
          simp only [i02_step, hdj]
          constructor
          · rw [i02_update_sel]
            exact hsel
          · rw [i02_update_out _ i hi, i02_update_data]
            simp [hsel]
  | fireDU =>
      cases hdu : s.du with
      | none =>
          simp only [i02_step, hdu]
          exact ⟨hsel, hout⟩
      | some dl =>
          simp only [i02_step, hdu]
          constructor
          · rw [i02_update_sel]
            exact hsel
          · rw [i02_update_out _ i hi, i02_update_data]
            simp [hsel]
  | rstBtn t => exact ⟨hsel, hout⟩

theorem i02_holds_run (i : Nat) (hi : i < 4) :
    ∀ (evs : List I02Ev) (s : I02State), i02_holds i s →
      (∀ e ∈ evs, i02_keepsSel i e = true) → i02_holds i (i02_run s evs) := by
  intro evs
  induction evs with
  | nil =>
      intro s h _
      exact h
  | cons e r ih =>
      intro s h hk
      have h1 := i02_holds_step i hi s e h (hk e (by simp))
      have h2 : ∀ e2 ∈ r, i02_keepsSel i e2 = true := fun e2 he2 => hk e2 (by simp [he2])
      simpa [i02_run] using ih (i02_step s e) h1 h2

theorem i02_fire_noop (s : I02State) (i j : Nat) (hi : i < 4)
    (hsel : s.led_select.testBit i = true) (hout : s.out_digit i = s.digit_data) :
    (i02_step s (.fireDD j)).out_digit i = s.out_digit i := by
  cases hdj : s.dd j with
  | none => simp [i02_step, hdj]
  | some dl =>
      simp only [i02_step, hdj]
      rw [i02_update_out _ i hi]
      simp [hsel, hout]

theorem i02_armed_step (i D : Nat) (hi : i < 6) (s : I02State) (e : I02Ev)
    (h : i02_armed i D s) (hk : i02_keepsDesel i e = true) (hok : i02_okB s e = true) :
    i02_armed i D (i02_step s e) ∧ (i02_step s e).out_digit i = s.out_digit i := by
  obtain ⟨hsel, hact, hdd, ht⟩ := h
  cases e with
  | ctrl t d =>
      simp only [i02_keepsDesel, Bool.not_eq_true'] at hk
      have hp := i02_ok_ctrl s t d hok
      refine ⟨⟨?_, ?_, ?_, ?_⟩, by rw [i02_step_ctrl_out]⟩
      · rw [i02_step_ctrl_sel]
        exact hk
      · rw [i02_step_ctrl_active, hact]
        rfl
      · rw [i02_step_ctrl_dd, if_neg, hdd]
        rintro ⟨-, -, h5⟩
        rw [hsel] at h5
        cases h5
      · rw [i02_step_ctrl_time]
        exact i02_pend_dd t s i D hp.2.1 hi hdd
  | dig t d =>
      have hp := i02_ok_dig s t d hok
      have hout : (i02_step s (.dig t d)).out_digit i = s.out_digit i := by
        by_cases h4 : i < 4
        · show (i02_update _).out_digit i = s.out_digit i
          rw [i02_update_out _ i h4]
          simp [hsel, hact]
        · exact i02_update_out_ge _ i h4
      refine ⟨⟨?_, ?_, ?_, ?_⟩, hout⟩
      · rw [show (i02_step s (.dig t d)).led_select = s.led_select from rfl]
        exact hsel
      · rw [show (i02_step s (.dig t d)).led_active = s.led_active from rfl]
        exact hact
      · rw [show (i02_step s (.dig t d)).dd = s.dd from rfl]
        exact hdd
      · rw [show (i02_step s (.dig t d)).time = t from rfl]
        exact i02_pend_dd t s i D hp.2.1 hi hdd
  | fireDD j =>
      simp only [i02_keepsDesel, decide_eq_true_eq] at hk
      cases hdj : s.dd j with
      | none =>
          simp only [i02_step, hdj]
          exact ⟨⟨hsel, hact, hdd, ht⟩, trivial⟩
      | some dl =>
          have hp := i02_ok_fire s j dl hdj hok
          have hdl : dl ≤ D := i02_pend_dd dl s i D hp.2.2 hi hdd
          have hact2 : ((s.led_active &&& (255 ^^^ (1 <<< j))) |||
              (s.led_select &&& (1 <<< j))).testBit i = true := by
            rw [i02_fire_active_bit _ _ _ _ (by omega)]
            rw [if_neg (fun h2 => hk h2.symm)]
            exact hact
          have hout : (i02_step s (.fireDD j)).out_digit i = s.out_digit i := by
            by_cases h4 : i < 4
            · simp only [i02_step, hdj]
              rw [i02_update_out _ i h4]
              simp [hsel, hact2]
            · simp only [i02_step, hdj]
              exact i02_update_out_ge _ i h4
          refine ⟨⟨?_, ?_, ?_, ?_⟩, hout⟩
          · simp only [i02_step, hdj]
            rw [i02_update_sel]
            exact hsel
          · simp only [i02_step, hdj]
            rw [i02_update_act]
            exact hact2
          · simp only [i02_step, hdj]
            rw [i02_update_dd]
            simp only []
            rw [if_neg (fun h2 => hk h2.symm)]
            exact hdd
          · simp only [i02_step, hdj]
            rw [i02_update_time]
            exact le_trans (le_refl dl) hdl
  | fireDU =>
      cases hdu : s.du with
      | none =>
          simp only [i02_step, hdu]
          exact ⟨⟨hsel, hact, hdd, ht⟩, trivial⟩
      | some dl =>
          have hp := i02_ok_fireDU s dl hdu hok
          have hdl : dl ≤ D := i02_pend_dd dl s i D hp.2 hi hdd
          have hout : (i02_step s (.fireDU)).out_digit i = s.out_digit i := by
            by_cases h4 : i < 4
            · simp only [i02_step, hdu]
              rw [i02_update_out _ i h4]
              simp [hsel, hact]
            · simp only [i02_step, hdu]
              exact i02_update_out_ge _ i h4
          refine ⟨⟨?_, ?_, ?_, ?_⟩, hout⟩
          · simp only [i02_step, hdu]
            rw [i02_update_sel]
            exact hsel
          · simp only [i02_step, hdu]
            rw [i02_update_act]
            exact hact
          · simp only [i02_step, hdu]
            rw [i02_update_dd]
            exact hdd
          · simp only [i02_step, hdu]
            rw [i02_update_time]
            exact hdl
  | rstBtn t =>
      have hp := i02_ok_rst s t hok
      exact ⟨⟨hsel, hact, hdd, i02_pend_dd t s i D hp.2 hi hdd⟩, rfl⟩

theorem i02_armed_run (i D : Nat) (hi : i < 6) :
    ∀ (evs : List I02Ev) (s : I02State), i02_armed i D s →
      (∀ e ∈ evs, i02_keepsDesel i e = true) → i02_runOk s evs = true →
      i02_armed i D (i02_run s evs) ∧ (i02_run s evs).out_digit i = s.out_digit i := by
  intro evs
  induction evs with
  | nil =>
      intro s h _ _
      exact ⟨h, rfl⟩
  | cons e r ih =>
      intro s h hk hok
      rw [show i02_runOk s (e :: r) = (i02_okB s e && i02_runOk (i02_step s e) r) from rfl,
        Bool.and_eq_true] at hok
      have h1 := i02_armed_step i D hi s e h (hk e (by simp)) hok.1
      have h2 : ∀ e2 ∈ r, i02_keepsDesel i e2 = true := fun e2 he2 => hk e2 (by simp [he2])
      have h3 := ih (i02_step s e) h1.1 h2 hok.2
      refine ⟨by simpa [i02_run] using h3.1, ?_⟩
      rw [show i02_run s (e :: r) = i02_run (i02_step s e) r from rfl]
      rw [h3.2, h1.2]

theorem i02_fire_blank (s : I02State) (i D : Nat) (hi : i < 4)
    (hsel : s.led_select.testBit i = false) (hdd : s.dd i = some D) :
    (i02_step s (.fireDD i)).out_digit i = 0 ∧ (i02_step s (.fireDD i)).time = D := by
  have hact2 : ((s.led_active &&& (255 ^^^ (1 <<< i))) |||
      (s.led_select &&& (1 <<< i))).testBit i = false := by
    rw [i02_fire_active_bit _ _ _ _ (by omega), if_pos rfl]
    exact hsel
  constructor
  · simp only [i02_step, hdd]
    rw [i02_update_out _ i hi]
    simp [hsel, hact2]
  · simp only [i02_step, hdd]
    rw [i02_update_time]

theorem i02_fire_selected (s : I02State) (i D : Nat) (hi : i < 4)
    (hsel : s.led_select.testBit i = true) (hdd : s.dd i = some D) :
    (i02_step s (.fireDD i)).out_digit i = s.digit_data ∧
    ((i02_step s (.fireDD i)).led_active).testBit i = true := by
  have hact2 : ((s.led_active &&& (255 ^^^ (1 <<< i))) |||
      (s.led_select &&& (1 <<< i))).testBit i = true := by
    rw [i02_fire_active_bit _ _ _ _ (by omega), if_pos rfl]
    exact hsel
  constructor
  · simp only [i02_step, hdd]
    rw [i02_update_out _ i hi]
    simp [hsel]
  · simp only [i02_step, hdd]
    rw [i02_update_act]
    exact hact2

/-- An `intel02` event is a `delay_display` timer firing. -/
def i02_isFireDD : I02Ev → Bool
  | .fireDD _ => true
  | _ => false

theorem i02_selSub_step (s : I02State) (e : I02Ev)
    (h : ∀ j, j < 6 → s.led_select.testBit j = true → s.led_active.testBit j = true) :
    ∀ j, j < 6 → (i02_step s e).led_select.testBit j = true →
      (i02_step s e).led_active.testBit j = true := by
  cases e with
  | ctrl t d =>
      intro j hj hsel
      rw [i02_step_ctrl_sel] at hsel
      rw [i02_step_ctrl_active]
      simp [hj, hsel]
  | dig t d =>
      intro j hj hsel
      rw [show (i02_step s (.dig t d)).led_select = s.led_select from rfl] at hsel
      rw [show (i02_step s (.dig t d)).led_active = s.led_active from rfl]
      exact h j hj hsel
  | fireDD i =>
      cases hdi : s.dd i with
      | none =>
          simpa only [i02_step, hdi] using h
      | some dl =>
          intro j hj hsel
          simp only [i02_step, hdi, i02_update_sel] at hsel
          simp only [i02_step, hdi, i02_update_act]
          rw [i02_fire_active_bit _ _ _ _ (by omega)]
          by_cases hji : j = i
          · rw [if_pos hji]
            exact hsel
          · rw [if_neg hji]
            exact h j hj hsel
  | fireDU =>
      cases hdu : s.du with
      | none => simpa only [i02_step, hdu] using h
      | some dl =>
          intro j hj hsel
          simp only [i02_step, hdu, i02_update_sel] at hsel
          simp only [i02_step, hdu, i02_update_act]
          exact h j hj hsel
  | rstBtn t => exact h

theorem i02_selSub_run :
    ∀ (evs : List I02Ev) (s : I02State),
      (∀ j, j < 6 → s.led_select.testBit j = true → s.led_active.testBit j = true) →
      ∀ j, j < 6 → (i02_run s evs).led_select.testBit j = true →
        (i02_run s evs).led_active.testBit j = true := by
  intro evs
  induction evs with
  | nil =>
      intro s h
      exact h
  | cons e r ih =>
      intro s h
      have h1 := i02_selSub_step s e h
      simpa [i02_run] using ih (i02_step s e) h1

theorem i02_active_mono (s : I02State) (e : I02Ev) (h : i02_isFireDD e = false) (j : Nat)
    (ha : s.led_active.testBit j = true) : (i02_step s e).led_active.testBit j = true := by
  cases e with
  | ctrl t d =>
      rw [i02_step_ctrl_active]
      simp [ha]
  | dig t d => exact ha
  | fireDD i => cases h
  | fireDU =>
      cases hdu : s.du with
      | none => simpa only [i02_step, hdu] using ha
      | some dl => simpa only [i02_step, hdu, i02_update_act] using ha
  | rstBtn t => exact ha

theorem i02_fire_other_bit (s : I02State) (i j : Nat) (hj : j < 8) (hne : j ≠ i) :
    (i02_step s (.fireDD i)).led_active.testBit j = s.led_active.testBit j := by
  cases hdi : s.dd i with
  | none => simp only [i02_step, hdi]
  | some dl =>
      simp only [i02_step, hdi, i02_update_act]
      rw [i02_fire_active_bit _ _ _ _ hj, if_neg hne]

/-! ## mk1 helper lemmas -/

theorem mk1_selStep_app (sel t d : Nat) (dd : Nat → Option Nat) (i j : Nat) :
    (mk1_selStep sel t d dd i) j
      = if sel.testBit i = false ∧ d.testBit i = true ∧ j = i then some (t + 20000)
        else dd j := by
  unfold mk1_selStep
  by_cases hs : sel.testBit i
  · simp [hs]
  · by_cases hd : d.testBit i
    · by_cases hj : j = i <;> simp [hs, hd, hj, Bool.not_eq_true']
    · simp [hs, hd, Bool.not_eq_true']

theorem mk1_selFold (sel t d : Nat) :
    ∀ (n : Nat) (dd : Nat → Option Nat) (j : Nat),
    ((List.range n).foldl (mk1_selStep sel t d) dd) j
      = if j < n ∧ sel.testBit j = false ∧ d.testBit j = true then some (t + 20000)
        else dd j := by
  intro n
  induction n with
  | zero => intro dd j; simp
  | succ n ih =>
      intro dd j
      rw [List.range_succ, List.foldl_append]
      simp only [List.foldl_cons, List.foldl_nil]
      rw [mk1_selStep_app, ih]
      by_cases hj : j = n
      · subst hj
        by_cases hs : sel.testBit j
        · simp [hs]
        · by_cases hd : d.testBit j
          · simp [hs, hd, Bool.not_eq_true']
          · simp [hs, hd]
      · have h2 : (j < n + 1 ∧ sel.testBit j = false ∧ d.testBit j = true)
            ↔ (j < n ∧ sel.testBit j = false ∧ d.testBit j = true) := by
          constructor
          · rintro ⟨h3, h4, h5⟩
            exact ⟨by omega, h4, h5⟩
          · rintro ⟨h3, h4, h5⟩
            exact ⟨by omega, h4, h5⟩
        have h3 : ¬(sel.testBit n = false ∧ d.testBit n = true ∧ j = n) := by
          rintro ⟨-, -, h4⟩
          exact hj h4
        rw [if_neg h3, if_congr h2 rfl rfl]

theorem mk1_update_sel (s : MK1State) : (mk1_update s).digit_select = s.digit_select := rfl

theorem mk1_update_data (s : MK1State) : (mk1_update s).digit_data = s.digit_data := rfl

theorem mk1_update_blink (s : MK1State) : (mk1_update s).blink = s.blink := rfl

theorem mk1_update_dd (s : MK1State) : (mk1_update s).dd = s.dd := rfl

theorem mk1_update_time (s : MK1State) : (mk1_update s).time = s.time := rfl

theorem mk1_update_out (s : MK1State) (i : Nat) (hi : i < 4) :
    (mk1_update s).out_digit i =
      if s.digit_select.testBit i then s.out_digit i
      else mk1_decode s.digit_data s.blink := by
  cases h : s.digit_select.testBit i <;> simp [mk1_update, hi, h]

theorem mk1_update_out_ge (s : MK1State) (i : Nat) (hi : ¬ i < 4) :
    (mk1_update s).out_digit i = s.out_digit i := by
  simp [mk1_update, hi]

theorem mk1_step_selW_dd (s : MK1State) (t d j : Nat) :
    (mk1_step s (.selW t d)).dd j
      = if j < 4 ∧ s.digit_select.testBit j = false ∧ d.testBit j = true then some (t + 20000)
        else s.dd j := by
  show (mk1_update _).dd j = _
  rw [mk1_update_dd]
  exact mk1_selFold s.digit_select t d 4 s.dd j

theorem mk1_pend_dd (t : Nat) (s : MK1State) (i D : Nat) (h : mk1_pend t s = true)
    (hi : i < 4) (hD : s.dd i = some D) : t ≤ D := by
  unfold mk1_pend at h
  rw [List.all_eq_true] at h
  have h2 := h i (List.mem_range.mpr hi)
  rw [hD] at h2
  simpa [leOpt] using h2

theorem mk1_ok_dataW (s : MK1State) (t d : Nat) (h : mk1_okB s (.dataW t d) = true) :
    s.time ≤ t ∧ mk1_pend t s = true ∧ d < 256 := by
  simp only [mk1_okB, Bool.and_eq_true, decide_eq_true_eq] at h
  exact ⟨h.1.1, h.1.2, h.2⟩

theorem mk1_ok_selW (s : MK1State) (t d : Nat) (h : mk1_okB s (.selW t d) = true) :
    s.time ≤ t ∧ mk1_pend t s = true ∧ d < 256 := by
  simp only [mk1_okB, Bool.and_eq_true, decide_eq_true_eq] at h
  exact ⟨h.1.1, h.1.2, h.2⟩

theorem mk1_ok_blinkT (s : MK1State) (t : Nat) (h : mk1_okB s (.blinkT t) = true) :
    s.time ≤ t ∧ mk1_pend t s = true := by
  simp only [mk1_okB, Bool.and_eq_true, decide_eq_true_eq] at h
  exact h

theorem mk1_ok_fire (s : MK1State) (i dl : Nat) (hD : s.dd i = some dl)
    (h : mk1_okB s (.fireDD i) = true) :
    i < 4 ∧ s.time ≤ dl ∧ mk1_pend dl s = true := by
  simp only [mk1_okB, hD, Bool.and_eq_true, decide_eq_true_eq] at h
  exact ⟨h.1, h.2.1, h.2.2⟩

theorem mk1_holds_step (i : Nat) (hi : i < 4) (s : MK1State) (e : MK1Ev)
    (h : mk1_holds i s) (hk : mk1_keepsSel i e = true) : mk1_holds i (mk1_step s e) := by
  obtain ⟨hsel, hout⟩ := h
  cases e with
  | dataW t d =>
      constructor
      · rw [show (mk1_step s (.dataW t d)).digit_select = s.digit_select from rfl]
        exact hsel
      · rw [show (mk1_step s (.dataW t d)).digit_data = d from rfl,
          show (mk1_step s (.dataW t d)).blink = s.blink from rfl]
        show (mk1_update _).out_digit i = _
        rw [mk1_update_out _ i hi]
        simp [hsel]
  | selW t d =>
      simp only [mk1_keepsSel, Bool.not_eq_true'] at hk
      constructor
      · rw [show (mk1_step s (.selW t d)).digit_select = d from rfl]
        exact hk
      · rw [show (mk1_step s (.selW t d)).digit_data = s.digit_data from rfl,
          show (mk1_step s (.selW t d)).blink = s.blink from rfl]
        show (mk1_update _).out_digit i = _
        rw [mk1_update_out _ i hi]
        simp [hk]
  | fireDD j =>
      cases hdj : s.dd j with
      | none =>
          simp only [mk1_step, hdj]
          exact ⟨hsel, hout⟩
      | some dl =>
          by_cases hsj : s.digit_select.testBit j
          · have hij : i ≠ j := by
              intro h2
              rw [h2, hsj] at hsel
              cases hsel
            simp only [mk1_step, hdj, if_pos hsj]
            exact ⟨hsel, by simpa [hij] using hout⟩
          · simp only [mk1_step, hdj, if_neg hsj]
            exact ⟨hsel, hout⟩
  | blinkT t =>
      constructor
      · rw [show (mk1_step s (.blinkT t)).digit_select = s.digit_select from rfl]
        exact hsel
      · rw [show (mk1_step s (.blinkT t)).digit_data = s.digit_data from rfl,
          show (mk1_step s (.blinkT t)).blink = !s.blink from rfl]
        show (mk1_update _).out_digit i = _
        rw [mk1_update_out _ i hi]
        simp [hsel]
  | rstOn t => cases hk

theorem mk1_holds_run (i : Nat) (hi : i < 4) :
    ∀ (evs : List MK1Ev) (s : MK1State), mk1_holds i s →
      (∀ e ∈ evs, mk1_keepsSel i e = true) → mk1_holds i (mk1_run s evs) := by
  intro evs
  induction evs with
  | nil =>
      intro s h _
      exact h
  | cons e r ih =>
      intro s h hk
      have h1 := mk1_holds_step i hi s e h (hk e (by simp))
      have h2 : ∀ e2 ∈ r, mk1_keepsSel i e2 = true := fun e2 he2 => hk e2 (by simp [he2])
      simpa [mk1_run] using ih (mk1_step s e) h1 h2

theorem mk1_fire_noop (s : MK1State) (i : Nat)
    (hsel : s.digit_select.testBit i = false) (j : Nat) :
    (mk1_step s (.fireDD i)).out_digit j = s.out_digit j := by
  cases hdi : s.dd i with
  | none => simp only [mk1_step, hdi]
  | some dl => simp [mk1_step, hdi, hsel]

theorem mk1_armed_step (i D : Nat) (hi : i < 4) (s : MK1State) (e : MK1Ev)
    (h : mk1_armed i D s) (hk : mk1_keepsDesel i e = true) (hok : mk1_okB s e = true) :
    mk1_armed i D (mk1_step s e) ∧ (mk1_step s e).out_digit i = s.out_digit i := by
  obtain ⟨hsel, hdd, ht⟩ := h
  cases e with
  | dataW t d =>
      have hp := mk1_ok_dataW s t d hok
      refine ⟨⟨?_, ?_, ?_⟩, ?_⟩
      · rw [show (mk1_step s (.dataW t d)).digit_select = s.digit_select from rfl]
        exact hsel
      · rw [show (mk1_step s (.dataW t d)).dd = s.dd from rfl]
        exact hdd
      · rw [show (mk1_step s (.dataW t d)).time = t from rfl]
        exact mk1_pend_dd t s i D hp.2.1 hi hdd
      · show (mk1_update _).out_digit i = _
        rw [mk1_update_out _ i hi]
        simp [hsel]
  | selW t d =>
      simp only [mk1_keepsDesel] at hk
      have hp := mk1_ok_selW s t d hok
      refine ⟨⟨?_, ?_, ?_⟩, ?_⟩
      · rw [show (mk1_step s (.selW t d)).digit_select = d from rfl]
        exact hk
      · rw [mk1_step_selW_dd, if_neg, hdd]
        rintro ⟨-, h4, -⟩
        rw [hsel] at h4
        cases h4
      · rw [show (mk1_step s (.selW t d)).time = t from rfl]
        exact mk1_pend_dd t s i D hp.2.1 hi hdd
      · show (mk1_update _).out_digit i = _
        rw [mk1_update_out _ i hi]
        simp [hk]
  | fireDD j =>
      simp only [mk1_keepsDesel, decide_eq_true_eq] at hk
      cases hdj : s.dd j with
      | none =>
          simp only [mk1_step, hdj]
          exact ⟨⟨hsel, hdd, ht⟩, trivial⟩
      | some dl =>
          have hp := mk1_ok_fire s j dl hdj hok
          have hdl : dl ≤ D := mk1_pend_dd dl s i D hp.2.2 hi hdd
          have hij : ¬ (i = j) := fun h2 => hk h2.symm
          by_cases hsj : s.digit_select.testBit j
          · simp only [mk1_step, hdj]
            rw [if_pos hsj]
            refine ⟨⟨hsel, ?_, hdl⟩, ?_⟩
            · show (if i = j then none else s.dd i) = some D
              rw [if_neg hij]
              exact hdd
            · show (if i = j then 0 else s.out_digit i) = s.out_digit i
              rw [if_neg hij]
          · have hns : ¬ (s.digit_select.testBit j = true) := by simp [hsj]
            simp only [mk1_step, hdj]
            rw [if_neg hns]
            refine ⟨⟨hsel, ?_, hdl⟩, rfl⟩
            show (if i = j then none else s.dd i) = some D
            rw [if_neg hij]
            exact hdd
  | blinkT t =>
      have hp := mk1_ok_blinkT s t hok
      refine ⟨⟨?_, ?_, ?_⟩, ?_⟩
      · rw [show (mk1_step s (.blinkT t)).digit_select = s.digit_select from rfl]
        exact hsel
      · rw [show (mk1_step s (.blinkT t)).dd = s.dd from rfl]
        exact hdd
      · rw [show (mk1_step s (.blinkT t)).time = t from rfl]
        exact mk1_pend_dd t s i D hp.2 hi hdd
      · show (mk1_update _).out_digit i = _
        rw [mk1_update_out _ i hi]
        simp [hsel]
  | rstOn t => cases hk

theorem mk1_armed_run (i D : Nat) (hi : i < 4) :
    ∀ (evs : List MK1Ev) (s : MK1State), mk1_armed i D s →
      (∀ e ∈ evs, mk1_keepsDesel i e = true) → mk1_runOk s evs = true →
      mk1_armed i D (mk1_run s evs) ∧ (mk1_run s evs).out_digit i = s.out_digit i := by
  intro evs
  induction evs with
  | nil =>
      intro s h _ _
      exact ⟨h, rfl⟩
  | cons e r ih =>
      intro s h hk hok
      rw [show mk1_runOk s (e :: r) = (mk1_okB s e && mk1_runOk (mk1_step s e) r) from rfl,
        Bool.and_eq_true] at hok
      have h1 := mk1_armed_step i D hi s e h (hk e (by simp)) hok.1
      have h2 : ∀ e2 ∈ r, mk1_keepsDesel i e2 = true := fun e2 he2 => hk e2 (by simp [he2])
      have h3 := ih (mk1_step s e) h1.1 h2 hok.2
      refine ⟨by simpa [mk1_run] using h3.1, ?_⟩
      rw [show mk1_run s (e :: r) = mk1_run (mk1_step s e) r from rfl]
      rw [h3.2, h1.2]

theorem mk1_fire_blank (s : MK1State) (i D : Nat)
    (hsel : s.digit_select.testBit i = true) (hdd : s.dd i = some D) :
    (mk1_step s (.fireDD i)).out_digit i = 0 ∧ (mk1_step s (.fireDD i)).time = D := by
  simp only [mk1_step, hdd, if_pos hsel]
  exact ⟨by simp, by simp⟩

theorem mk1_data_const (s : MK1State) (e : MK1Ev) (h : mk1_isDataW e = false) :
    (mk1_step s e).digit_data = s.digit_data := by
  cases e with
  | dataW t d => cases h
  | selW t d => rfl
  | fireDD i =>
      cases hdi : s.dd i
      · simp only [mk1_step, hdi]
      · simp only [mk1_step, hdi]
        split
        · rfl
        · rfl
  | blinkT t => rfl
  | rstOn t => rfl

theorem mk1_data_run :
    ∀ (evs : List MK1Ev) (s : MK1State), (∀ e ∈ evs, mk1_isDataW e = false) →
      (mk1_run s evs).digit_data = s.digit_data := by
  intro evs
  induction evs with
  | nil =>
      intro s _
      rfl
  | cons e r ih =>
      intro s h
      have h2 : ∀ e2 ∈ r, mk1_isDataW e2 = false := fun e2 he2 => h e2 (by simp [he2])
      rw [show mk1_run s (e :: r) = mk1_run (mk1_step s e) r from rfl, ih (mk1_step s e) h2,
        mk1_data_const s e (h e (by simp))]

/-! ## Keypad read lemmas -/

theorem foldl_or_testBit (f : Nat → Nat → Nat)
    (hf : ∀ acc i j, acc.testBit j = true → (f acc i).testBit j = true) :
    ∀ (l : List Nat) (acc j : Nat), acc.testBit j = true → (l.foldl f acc).testBit j = true := by
  intro l
  induction l with
  | nil =>
      intro acc j h
      exact h
  | cons x r ih =>
      intro acc j h
      exact ih (f acc x) j (hf acc x j h)

theorem mk1_read_sub (data : Nat) (key : Nat → Nat) (j : Nat) (h : data.testBit j = true) :
    (mk1_input_r data key).testBit j = true := by
  unfold mk1_input_r
  apply foldl_or_testBit
  · intro acc i j2 h2
    by_cases hc : data.testBit i
    · simpa [hc, Nat.testBit_lor] using Or.inl h2
    · simpa [hc] using h2
  · apply foldl_or_testBit
    · intro acc i j2 h2
      by_cases hc : data &&& key i ≠ 0
      · simpa [hc, Nat.testBit_lor] using Or.inl h2
      · simpa [hc] using h2
    · exact h

theorem mk1_input_land (data : Nat) (key : Nat → Nat) :
    mk1_input_r data key &&& data = data :=
  land_eq_right _ _ (fun j hj => mk1_read_sub data key j hj)

theorem mk1_input_zero (d : Nat) : mk1_input_r d (fun _ => 0) = d := by
  simp [mk1_input_r, show List.range 4 = [0, 1, 2, 3] from rfl, Nat.and_zero, Nat.or_zero]

theorem clz_two_pow (a : Nat) : count_leading_zeros (2 ^ a) = 31 - a := by
  unfold count_leading_zeros
  rw [if_neg (Nat.pos_iff_ne_zero.mp (Nat.pos_pow_of_pos a (by norm_num))),
    Nat.log2_eq_log_two, Nat.log_pow (by norm_num)]

theorem clz_lower (k : Nat) (hk : k < 2 ^ 15) : 17 ≤ count_leading_zeros k := by
  unfold count_leading_zeros
  by_cases h : k = 0
  · simp [h]
  · rw [if_neg h]
    have hl : Nat.log2 k < 15 := (Nat.log2_lt h).mpr hk
    omega

theorem clz_upper (k : Nat) : count_leading_zeros k ≤ 32 := by
  unfold count_leading_zeros
  by_cases h : k = 0
  · simp [h]
  · rw [if_neg h]
    omega

theorem i02_input_decomp (k0 k1 : Nat) (hk : k0 < 2 ^ 15) :
    i02_input_r k0 k1 &&& 15 = count_leading_zeros k0 - 17 ∧
    i02_input_r k0 k1 >>> 4 = (k1 ^^^ 0xffffffff) &&& 15 := by
  have h17 := clz_lower k0 hk
  have h32 := clz_upper k0
  have hdata : (count_leading_zeros k0 + 239) % 256 = count_leading_zeros k0 - 17 := by
    omega
  have hlt : count_leading_zeros k0 - 17 < 2 ^ 4 := by
    have : (2 : Nat) ^ 4 = 16 := by norm_num
    omega
  unfold i02_input_r
  rw [hdata]
  constructor
  · apply Nat.eq_of_testBit_eq
    intro j
    rw [Nat.testBit_land, Nat.testBit_lor, Nat.testBit_land, testBit_15]
    by_cases hj : j < 4
    · have hhi : (((k1 ^^^ 0xffffffff) <<< 4)).testBit j = false := by
        rw [Nat.testBit_shiftLeft]
        simp
        omega
      simp [hj, hhi]
    · have hlow : (count_leading_zeros k0 - 17).testBit j = false := by
        apply Nat.testBit_lt_two_pow
        calc count_leading_zeros k0 - 17 < 2 ^ 4 := hlt
        _ ≤ 2 ^ j := Nat.pow_le_pow_right (by norm_num) (by omega)
      simp [hj, hlow]
  · apply Nat.eq_of_testBit_eq
    intro j
    rw [Nat.testBit_shiftRight, Nat.testBit_lor, Nat.testBit_land, Nat.testBit_land,
      Nat.testBit_shiftLeft, testBit_15]
    have hlow : (count_leading_zeros k0 - 17).testBit (4 + j) = false := by
      apply Nat.testBit_lt_two_pow
      calc count_leading_zeros k0 - 17 < 2 ^ 4 := hlt
      _ ≤ 2 ^ (4 + j) := Nat.pow_le_pow_right (by norm_num) (by omega)
    have h240 : (0xf0 : Nat).testBit (4 + j) = decide (j < 4) := by
      rw [show (0xf0 : Nat) = 15 <<< 4 from rfl, Nat.testBit_shiftLeft, testBit_15]
      simp
    rw [hlow, h240]
    have hge : decide (4 + j ≥ 4) = true := by simp
    rw [hge, show 4 + j - 4 = j from by omega]
    simp [Bool.and_comm]

instance (i : Nat) (s : I02State) : Decidable (i02_holds i s) := by
  unfold i02_holds
  exact inferInstance

instance (i D : Nat) (s : I02State) : Decidable (i02_armed i D s) := by
  unfold i02_armed
  exact inferInstance

instance (i : Nat) (s : MK1State) : Decidable (mk1_holds i s) := by
  unfold mk1_holds
  exact inferInstance

instance (i D : Nat) (s : MK1State) : Decidable (mk1_armed i D s) := by
  unfold mk1_armed
  exact inferInstance

theorem mk1_fire_keep_blank (s : MK1State) (h : ∀ j, j < 4 → s.out_digit j = 0)
    (i j : Nat) (hj : j < 4) : (mk1_step s (.fireDD i)).out_digit j = 0 := by
  cases hdi : s.dd i with
  | none =>
      simp only [mk1_step, hdi]
      exact h j hj
  | some dl =>
      by_cases hsi : s.digit_select.testBit i
      · simp only [mk1_step, hdi]
        rw [if_pos hsi]
        show (if j = i then 0 else s.out_digit j) = 0
        by_cases hji : j = i
        · rw [if_pos hji]
        · rw [if_neg hji]
          exact h j hj
      · have hns : ¬ (s.digit_select.testBit i = true) := by simp [hsi]
        simp only [mk1_step, hdi]
        rw [if_neg hns]
        exact h j hj

/-! ## Claim theorems -/

/-- C1: Hold invariant.  In both drivers, a digit whose select bit stays
continuously active across any sequence of select-mask writes, data writes and
deflicker-timer firings keeps satisfying the hold invariant: it is never
blanked by the deflicker machinery and its output always equals the decoded
value of the currently latched data byte (in mk1 under the current blink
phase).  In particular a deflicker timer firing while the digit is selected is
a no-op on that digit's output. -/
theorem C1_hold_invariant :
    (∀ (i : Nat), i < 4 → ∀ (s : I02State) (evs : List I02Ev),
        i02_holds i s → (∀ e ∈ evs, i02_keepsSel i e = true) →
        i02_holds i (i02_run s evs)) ∧
    (∀ (s : I02State) (i j : Nat), i < 4 → i02_holds i s →
        (i02_step s (.fireDD j)).out_digit i = s.out_digit i) ∧
    (∀ (i : Nat), i < 4 → ∀ (s : MK1State) (evs : List MK1Ev),
        mk1_holds i s → (∀ e ∈ evs, mk1_keepsSel i e = true) →
        mk1_holds i (mk1_run s evs)) ∧
    (∀ (s : MK1State) (i : Nat), s.digit_select.testBit i = false →
        ∀ j, (mk1_step s (.fireDD i)).out_digit j = s.out_digit j) := by
  refine ⟨?_, ?_, ?_, ?_⟩
  · intro i hi s evs h hk
    exact i02_holds_run i hi evs s h hk
  · intro s i j hi h
    exact i02_fire_noop s i j hi h.1 h.2
  · intro i hi s evs h hk
    exact mk1_holds_run i hi evs s h hk
  · intro s i h j
    exact mk1_fire_noop s i h j

/-- C1 witness: concrete instantiations of the hold invariant on both
machines. -/
theorem C1_hold_invariant_witness :
    i02_holds 0 (i02_run (i02_run i02_init [.ctrl 0 1]) [.dig 5 65, .fireDU, .fireDD 0]) ∧
    (i02_step (i02_run i02_init [.ctrl 0 1, .dig 5 65]) (.fireDD 2)).out_digit 0
      = (i02_run i02_init [.ctrl 0 1, .dig 5 65]).out_digit 0 ∧
    mk1_holds 1 (mk1_run (mk1_run mk1_init [.selW 0 0xfd]) [.dataW 5 3, .blinkT 7, .fireDD 1]) ∧
    (mk1_step (mk1_run mk1_init [.selW 0 0xfd]) (.fireDD 1)).out_digit 1
      = (mk1_run mk1_init [.selW 0 0xfd]).out_digit 1 := by
  refine ⟨?_, ?_, ?_, ?_⟩
  · exact C1_hold_invariant.1 0 (by decide) _ _ (by decide) (by decide)
  · exact C1_hold_invariant.2.1 _ 0 2 (by decide) (by decide)
  · exact C1_hold_invariant.2.2.1 1 (by decide) _ _ (by decide) (by decide)
  · exact C1_hold_invariant.2.2.2 _ 1 (by decide) 1

/-- C2: Deflicker bound.  A write producing a falling edge of a selected line
arms that line's one-shot timer exactly 25000us (intellect02) or 20000us (mk1)
ahead; while the line stays deselected the digit's output is untouched by any
valid event other than that timer's own firing, and no valid event can run
past the pending deadline; the firing itself, with the line still deselected,
blanks the digit exactly at the deadline.  If instead the line is re-selected
before the deadline, the superseded firing does not blank: in intellect02 it
re-latches the current data and keeps the active bit, in mk1 it is a complete
no-op on the outputs. -/
theorem C2_deflicker_bound :
    (∀ (s : I02State) (t d i : Nat), i < 6 →
        s.led_select.testBit i = true → d.testBit i = false →
        (i02_step s (.ctrl t d)).dd i = some (t + 25000)) ∧
    (∀ (i D : Nat), i < 6 → ∀ (evs : List I02Ev) (s : I02State),
        i02_armed i D s → (∀ e ∈ evs, i02_keepsDesel i e = true) →
        i02_runOk s evs = true →
        i02_armed i D (i02_run s evs) ∧ (i02_run s evs).out_digit i = s.out_digit i) ∧
    (∀ (s : I02State) (i D : Nat), i < 4 → s.led_select.testBit i = false →
        s.dd i = some D →
        (i02_step s (.fireDD i)).out_digit i = 0 ∧ (i02_step s (.fireDD i)).time = D) ∧
    (∀ (s : I02State) (i D : Nat), i < 4 → s.led_select.testBit i = true →
        s.dd i = some D →
        (i02_step s (.fireDD i)).out_digit i = s.digit_data ∧
        ((i02_step s (.fireDD i)).led_active).testBit i = true) ∧
    (∀ (s : MK1State) (t d i : Nat), i < 4 →
        s.digit_select.testBit i = false → d.testBit i = true →
        (mk1_step s (.selW t d)).dd i = some (t + 20000)) ∧
    (∀ (i D : Nat), i < 4 → ∀ (evs : List MK1Ev) (s : MK1State),
        mk1_armed i D s → (∀ e ∈ evs, mk1_keepsDesel i e = true) →
        mk1_runOk s evs = true →
        mk1_armed i D (mk1_run s evs) ∧ (mk1_run s evs).out_digit i = s.out_digit i) ∧
    (∀ (s : MK1State) (i D : Nat), s.digit_select.testBit i = true → s.dd i = some D →
        (mk1_step s (.fireDD i)).out_digit i = 0 ∧ (mk1_step s (.fireDD i)).time = D) ∧
    (∀ (s : MK1State) (i : Nat), s.digit_select.testBit i = false →
        ∀ j, (mk1_step s (.fireDD i)).out_digit j = s.out_digit j) := by
  refine ⟨?_, ?_, ?_, ?_, ?_, ?_, ?_, ?_⟩
  · intro s t d i hi hsel hd
    rw [i02_step_ctrl_dd, if_pos ⟨hi, hd, hsel⟩]
  · intro i D hi evs s h hk hok
    exact i02_armed_run i D hi evs s h hk hok
  · intro s i D hi hsel hdd
    exact i02_fire_blank s i D hi hsel hdd
  · intro s i D hi hsel hdd
    exact i02_fire_selected s i D hi hsel hdd
  · intro s t d i hi hsel hd
    rw [mk1_step_selW_dd, if_pos ⟨hi, hsel, hd⟩]
  · intro i D hi evs s h hk hok
    exact mk1_armed_run i D hi evs s h hk hok
  · intro s i D hsel hdd
    exact mk1_fire_blank s i D hsel hdd
  · intro s i h j
    exact mk1_fire_noop s i h j

/-- C2 witness: concrete arming, hold-unchanged run, deadline blanking and
superseded-fire instantiations on both machines. -/
theorem C2_deflicker_bound_witness :
    (i02_step (i02_run i02_init [.ctrl 0 2]) (.ctrl 20 0)).dd 1 = some 25020 ∧
    (i02_armed 1 25020 (i02_run (i02_run i02_init [.ctrl 0 2, .fireDU, .ctrl 20 0])
        [.fireDU, .dig 40 7]) ∧
      (i02_run (i02_run i02_init [.ctrl 0 2, .fireDU, .ctrl 20 0])
        [.fireDU, .dig 40 7]).out_digit 1
        = (i02_run i02_init [.ctrl 0 2, .fireDU, .ctrl 20 0]).out_digit 1) ∧
    ((i02_step (i02_run i02_init [.ctrl 0 2, .fireDU, .ctrl 20 0]) (.fireDD 1)).out_digit 1 = 0 ∧
      (i02_step (i02_run i02_init [.ctrl 0 2, .fireDU, .ctrl 20 0]) (.fireDD 1)).time = 25020) ∧
    ((i02_step (i02_run i02_init [.ctrl 0 2, .fireDU, .ctrl 20 0, .ctrl 22 2])
        (.fireDD 1)).out_digit 1
        = (i02_run i02_init [.ctrl 0 2, .fireDU, .ctrl 20 0, .ctrl 22 2]).digit_data ∧
      ((i02_step (i02_run i02_init [.ctrl 0 2, .fireDU, .ctrl 20 0, .ctrl 22 2])
        (.fireDD 1)).led_active).testBit 1 = true) ∧
    (mk1_step mk1_init (.selW 10 2)).dd 1 = some 20010 ∧
    (mk1_armed 1 20010 (mk1_run (mk1_run mk1_init [.selW 10 2]) [.blinkT 15, .dataW 30 9]) ∧
      (mk1_run (mk1_run mk1_init [.selW 10 2]) [.blinkT 15, .dataW 30 9]).out_digit 1
        = (mk1_run mk1_init [.selW 10 2]).out_digit 1) ∧
    ((mk1_step (mk1_run mk1_init [.selW 10 2]) (.fireDD 1)).out_digit 1 = 0 ∧
      (mk1_step (mk1_run mk1_init [.selW 10 2]) (.fireDD 1)).time = 20010) ∧
    (mk1_step mk1_init (.fireDD 2)).out_digit 2 = mk1_init.out_digit 2 := by
  refine ⟨?_, ?_, ?_, ?_, ?_, ?_, ?_, ?_⟩
  · exact C2_deflicker_bound.1 _ 20 0 1 (by decide) (by decide) (by decide)
  · exact C2_deflicker_bound.2.1 1 25020 (by decide) _ _ (by decide) (by decide) (by decide)
  · exact C2_deflicker_bound.2.2.1 _ 1 25020 (by decide) (by decide) (by decide)
  · exact C2_deflicker_bound.2.2.2.1 _ 1 25020 (by decide) (by decide) (by decide)
  · exact C2_deflicker_bound.2.2.2.2.1 _ 10 2 1 (by decide) (by decide) (by decide)
  · exact C2_deflicker_bound.2.2.2.2.2.1 1 20010 (by decide) _ _ (by decide) (by decide)
      (by decide)
  · exact C2_deflicker_bound.2.2.2.2.2.2.1 _ 1 20010 (by decide) (by decide)
  · exact C2_deflicker_bound.2.2.2.2.2.2.2 mk1_init 2 (by decide) 2

/-- C3: ActiveMask invariant.  From the zero-initialized intellect02 state,
after any event sequence every set bit of the 6-bit select field is also set
in the active mask; no event other than a delay_display firing ever clears an
active-mask bit (port writes only OR bits in); and the firing of timer i
changes no active-mask bit other than bit i. -/
theorem C3_active_mask :
    (∀ (evs : List I02Ev) (j : Nat), j < 6 →
        (i02_run i02_init evs).led_select.testBit j = true →
        (i02_run i02_init evs).led_active.testBit j = true) ∧
    (∀ (s : I02State) (e : I02Ev), i02_isFireDD e = false →
        ∀ j, s.led_active.testBit j = true → (i02_step s e).led_active.testBit j = true) ∧
    (∀ (s : I02State) (i j : Nat), j < 8 → j ≠ i →
        (i02_step s (.fireDD i)).led_active.testBit j = s.led_active.testBit j) := by
  refine ⟨?_, ?_, ?_⟩
  · intro evs j hj hsel
    refine i02_selSub_run evs i02_init ?_ j hj hsel
    intro j2 hj2 h2
    rw [show i02_init.led_select = 0 from rfl, Nat.zero_testBit] at h2
    cases h2
  · intro s e h j ha
    exact i02_active_mono s e h j ha
  · intro s i j hj hne
    exact i02_fire_other_bit s i j hj hne

/-- C3 witness: concrete instantiations of the ActiveMask invariant. -/
theorem C3_active_mask_witness :
    (i02_run i02_init [.ctrl 0 3]).led_active.testBit 1 = true ∧
    (i02_step (i02_run i02_init [.ctrl 0 3]) (.dig 5 7)).led_active.testBit 0 = true ∧
    (i02_step (i02_run i02_init [.ctrl 0 3, .fireDU, .ctrl 20 1]) (.fireDD 1)).led_active.testBit 0
      = (i02_run i02_init [.ctrl 0 3, .fireDU, .ctrl 20 1]).led_active.testBit 0 := by
  refine ⟨?_, ?_, ?_⟩
  · exact C3_active_mask.1 [.ctrl 0 3] 1 (by decide) (by decide)
  · exact C3_active_mask.2.1 _ (.dig 5 7) (by decide) 0 (by decide)
  · exact C3_active_mask.2.2 _ 1 0 (by decide) (by decide)

/-- C4: Refresh rule.  On every refresh of intellect02, digit i shows the
latched decoded data byte if its select bit is set, keeps its previous value
if only its active bit is set, and is blanked otherwise; the data latch holds
the bitswap-decoded raw byte.  The claim's worked example holds on a complete
valid run: after select=0b0011, data=0x41, select=0b0001 (with the coalesced
refresh timer firing after each write), digit 0 shows decoded(0x41)=0x41,
digit 1 retains 0x41 until its deflicker timer fires at its 25ms deadline and
then blanks, and digits 2 and 3 stay blank throughout. -/
theorem C4_refresh_rule :
    (∀ (s : I02State) (i : Nat), i < 4 →
        (i02_update s).out_digit i =
          if s.led_select.testBit i then s.digit_data
          else if s.led_active.testBit i then s.out_digit i
          else 0) ∧
    (∀ (s : I02State) (t raw : Nat),
        (i02_step s (.dig t raw)).digit_data = bitswap8 raw 7 0 1 2 3 4 5 6) ∧
    i02_runOk i02_init [.ctrl 0 3, .dig 5 65, .fireDU, .ctrl 20 1, .fireDU, .fireDD 1]
      = true ∧
    bitswap8 65 7 0 1 2 3 4 5 6 = 65 ∧
    ((i02_run i02_init [.ctrl 0 3, .dig 5 65, .fireDU]).out_digit 0 = 65 ∧
      (i02_run i02_init [.ctrl 0 3, .dig 5 65, .fireDU]).out_digit 1 = 65 ∧
      (i02_run i02_init [.ctrl 0 3, .dig 5 65, .fireDU]).out_digit 2 = 0 ∧
      (i02_run i02_init [.ctrl 0 3, .dig 5 65, .fireDU]).out_digit 3 = 0) ∧
    ((i02_run i02_init [.ctrl 0 3, .dig 5 65, .fireDU, .ctrl 20 1, .fireDU]).out_digit 0 = 65 ∧
      (i02_run i02_init [.ctrl 0 3, .dig 5 65, .fireDU, .ctrl 20 1, .fireDU]).out_digit 1 = 65 ∧
      (i02_run i02_init [.ctrl 0 3, .dig 5 65, .fireDU, .ctrl 20 1, .fireDU]).out_digit 2 = 0 ∧
      (i02_run i02_init [.ctrl 0 3, .dig 5 65, .fireDU, .ctrl 20 1, .fireDU]).out_digit 3 = 0 ∧
      (i02_run i02_init [.ctrl 0 3, .dig 5 65, .fireDU, .ctrl 20 1, .fireDU]).dd 1
        = some 25020) ∧
    ((i02_run i02_init [.ctrl 0 3, .dig 5 65, .fireDU, .ctrl 20 1, .fireDU, .fireDD 1]).out_digit 0
        = 65 ∧
      (i02_run i02_init [.ctrl 0 3, .dig 5 65, .fireDU, .ctrl 20 1, .fireDU, .fireDD 1]).out_digit 1
        = 0 ∧
      (i02_run i02_init [.ctrl 0 3, .dig 5 65, .fireDU, .ctrl 20 1, .fireDU, .fireDD 1]).out_digit 2
        = 0 ∧
      (i02_run i02_init [.ctrl 0 3, .dig 5 65, .fireDU, .ctrl 20 1, .fireDU, .fireDD 1]).out_digit 3
        = 0 ∧
      (i02_run i02_init [.ctrl 0 3, .dig 5 65, .fireDU, .ctrl 20 1, .fireDU, .fireDD 1]).time
        = 25020) := by
  refine ⟨?_, ?_, by decide, by decide, by decide, by decide, by decide⟩
  · intro s i hi
    exact i02_update_out s i hi
  · intro s t raw
    rfl

/-- C4 witness: the refresh-rule equation applied at a concrete state and
digit. -/
theorem C4_refresh_rule_witness :
    (2 : Nat) < 4 ∧
    (i02_update (i02_run i02_init [.ctrl 0 3, .dig 5 65])).out_digit 2 =
      if (i02_run i02_init [.ctrl 0 3, .dig 5 65]).led_select.testBit 2 then
        (i02_run i02_init [.ctrl 0 3, .dig 5 65]).digit_data
      else if (i02_run i02_init [.ctrl 0 3, .dig 5 65]).led_active.testBit 2 then
        (i02_run i02_init [.ctrl 0 3, .dig 5 65]).out_digit 2
      else 0 :=
  ⟨by decide, C4_refresh_rule.1 (i02_run i02_init [.ctrl 0 3, .dig 5 65]) 2 (by decide)⟩

/-- C5 counterexample: the claim says the lose/win indicator lines follow the
select-mask write that changes them with no delayed fall-off.  On the valid
run below, the write at time 20 clears select bit 4 (the lose led), yet after
the following refresh the led output is still 1, not 0: the led stays lit
until delay_display[4] fires 25 ms later, so its fall-off IS delayed, refuting
the claim. -/
theorem C5_counterexample :
    i02_runOk i02_init [.ctrl 0 16, .fireDU, .ctrl 20 0, .fireDU] = true ∧
    (i02_run i02_init [.ctrl 0 16, .fireDU]).out_led 0 = 1 ∧
    (i02_run i02_init [.ctrl 0 16, .fireDU, .ctrl 20 0]).led_select.testBit 4 = false ∧
    (i02_run i02_init [.ctrl 0 16, .fireDU, .ctrl 20 0, .fireDU]).out_led 0 = 1 ∧
    (1 : Nat) ≠ 0 := by decide

/-- C5 (amended): the two indicator leds are derived directly from bits 4 and
5 of the active mask at every refresh, outside the per-digit loop and with no
per-digit hold; turn-ON follows the select write immediately (visible at the
next refresh), but turn-OFF is subject to the same 25 ms deflicker delay: a
write clearing the bit only arms delay_display[4]/[5] and leaves the led lit
until that timer fires, which then switches it off at the next refresh. -/
theorem C5_indicator_lines :
    (∀ s : I02State, (i02_update s).out_led 0 = bitv s.led_active 4 ∧
        (i02_update s).out_led 1 = bitv s.led_active 5) ∧
    (∀ (s : I02State) (t d : Nat), d.testBit 4 = true →
        ((i02_step s (.ctrl t d)).led_active).testBit 4 = true) ∧
    (∀ (s : I02State) (t d : Nat), d.testBit 5 = true →
        ((i02_step s (.ctrl t d)).led_active).testBit 5 = true) ∧
    (∀ (s : I02State) (t d : Nat), d.testBit 4 = false → s.led_select.testBit 4 = true →
        (i02_step s (.ctrl t d)).dd 4 = some (t + 25000) ∧
        (i02_step s (.ctrl t d)).out_led = s.out_led) ∧
    (∀ (s : I02State) (t d : Nat), d.testBit 5 = false → s.led_select.testBit 5 = true →
        (i02_step s (.ctrl t d)).dd 5 = some (t + 25000) ∧
        (i02_step s (.ctrl t d)).out_led = s.out_led) ∧
    (∀ (s : I02State) (D : Nat), s.led_select.testBit 4 = false → s.dd 4 = some D →
        (i02_step s (.fireDD 4)).out_led 0 = 0) ∧
    (∀ (s : I02State) (D : Nat), s.led_select.testBit 5 = false → s.dd 5 = some D →
        (i02_step s (.fireDD 5)).out_led 1 = 0) ∧
    (i02_run i02_init [.ctrl 0 16, .fireDU, .ctrl 20 0, .fireDU, .fireDD 4]).out_led 0 = 0 ∧
    (i02_runOk i02_init [.ctrl 0 32, .fireDU, .ctrl 20 0, .fireDU, .fireDD 5] = true ∧
      (i02_run i02_init [.ctrl 0 32, .fireDU]).out_led 1 = 1 ∧
      (i02_run i02_init [.ctrl 0 32, .fireDU, .ctrl 20 0, .fireDU]).out_led 1 = 1 ∧
      (i02_run i02_init [.ctrl 0 32, .fireDU, .ctrl 20 0, .fireDU, .fireDD 5]).out_led 1
        = 0) := by
  refine ⟨?_, ?_, ?_, ?_, ?_, ?_, ?_, by decide, by decide⟩
  · intro s
    exact ⟨i02_update_led0 s, i02_update_led1 s⟩
  · intro s t d hd
    rw [i02_step_ctrl_active]
    simp [hd]
  · intro s t d hd
    rw [i02_step_ctrl_active]
    simp [hd]
  · intro s t d hd hsel
    constructor
    · rw [i02_step_ctrl_dd, if_pos ⟨by omega, hd, hsel⟩]
    · rw [i02_step_ctrl_led]
  · intro s t d hd hsel
    constructor
    · rw [i02_step_ctrl_dd, if_pos ⟨by omega, hd, hsel⟩]
    · rw [i02_step_ctrl_led]
  · intro s D hsel hdd
    simp only [i02_step, hdd, i02_update_led0]
    unfold bitv
    rw [i02_fire_active_bit _ _ _ _ (by omega), if_pos rfl, hsel]
    rfl
  · intro s D hsel hdd
    simp only [i02_step, hdd, i02_update_led1]
    unfold bitv
    rw [i02_fire_active_bit _ _ _ _ (by omega), if_pos rfl, hsel]
    rfl

/-- C5 witness: concrete instantiations of the amended indicator-line
behavior. -/
theorem C5_indicator_lines_witness :
    ((i02_update i02_init).out_led 0 = bitv i02_init.led_active 4 ∧
      (i02_update i02_init).out_led 1 = bitv i02_init.led_active 5) ∧
    ((i02_step i02_init (.ctrl 0 16)).led_active).testBit 4 = true ∧
    ((i02_step i02_init (.ctrl 0 32)).led_active).testBit 5 = true ∧
    ((i02_step (i02_run i02_init [.ctrl 0 16]) (.ctrl 20 0)).dd 4 = some 25020 ∧
      (i02_step (i02_run i02_init [.ctrl 0 16]) (.ctrl 20 0)).out_led
        = (i02_run i02_init [.ctrl 0 16]).out_led) ∧
    ((i02_step (i02_run i02_init [.ctrl 0 32]) (.ctrl 20 0)).dd 5 = some 25020 ∧
      (i02_step (i02_run i02_init [.ctrl 0 32]) (.ctrl 20 0)).out_led
        = (i02_run i02_init [.ctrl 0 32]).out_led) ∧
    (i02_step (i02_run i02_init [.ctrl 0 16, .fireDU, .ctrl 20 0]) (.fireDD 4)).out_led 0
      = 0 ∧
    (i02_step (i02_run i02_init [.ctrl 0 32, .fireDU, .ctrl 20 0]) (.fireDD 5)).out_led 1
      = 0 := by
  refine ⟨?_, ?_, ?_, ?_, ?_, ?_, ?_⟩
  · exact C5_indicator_lines.1 i02_init
  · exact C5_indicator_lines.2.1 i02_init 0 16 (by decide)
  · exact C5_indicator_lines.2.2.1 i02_init 0 32 (by decide)
  · exact C5_indicator_lines.2.2.2.1 _ 20 0 (by decide) (by decide)
  · exact C5_indicator_lines.2.2.2.2.1 _ 20 0 (by decide) (by decide)
  · exact C5_indicator_lines.2.2.2.2.2.1 _ 25020 (by decide) (by decide)
  · exact C5_indicator_lines.2.2.2.2.2.2.1 _ 25020 (by decide) (by decide)

/-- C6: Scancode totality and injectivity.  Over the 15-bit button port
domain, the intellect02 read is a total function whose low nibble is the
leading-zero count of the button bitfield minus 17 and whose high nibble is
the inverted direct lines; the all-zero mask yields the sentinel low nibble
15; and two distinct single-key masks always produce different codes. -/
theorem C6_scancode :
    (∀ (k0 k1 : Nat), k0 < 2 ^ 15 →
        i02_input_r k0 k1 &&& 15 = count_leading_zeros k0 - 17 ∧
        i02_input_r k0 k1 >>> 4 = (k1 ^^^ 0xffffffff) &&& 15) ∧
    (∀ k1 : Nat, i02_input_r 0 k1 &&& 15 = 15) ∧
    (∀ (k1 a b : Nat), a < 15 → b < 15 → a ≠ b →
        i02_input_r (2 ^ a) k1 ≠ i02_input_r (2 ^ b) k1) := by
  refine ⟨?_, ?_, ?_⟩
  · intro k0 k1 hk
    exact i02_input_decomp k0 k1 hk
  · intro k1
    rw [(i02_input_decomp 0 k1 (by norm_num)).1]
    rfl
  · intro k1 a b ha hb hne heq
    have hpa : (2 : Nat) ^ a < 2 ^ 15 := Nat.pow_lt_pow_right (by norm_num) (by omega)
    have hpb : (2 : Nat) ^ b < 2 ^ 15 := Nat.pow_lt_pow_right (by norm_num) (by omega)
    have h1 := (i02_input_decomp (2 ^ a) k1 hpa).1
    have h2 := (i02_input_decomp (2 ^ b) k1 hpb).1
    rw [heq, h2, clz_two_pow] at h1
    rw [clz_two_pow] at h1
    omega

/-- C6 witness: concrete scancode decompositions, the all-zero sentinel, and
one injectivity instance. -/
theorem C6_scancode_witness :
    (8 : Nat) < 2 ^ 15 ∧
    (i02_input_r 8 2 &&& 15 = count_leading_zeros 8 - 17 ∧
      i02_input_r 8 2 >>> 4 = (2 ^^^ 0xffffffff) &&& 15) ∧
    i02_input_r 0 2 &&& 15 = 15 ∧
    i02_input_r (2 ^ 3) 0 ≠ i02_input_r (2 ^ 5) 0 :=
  ⟨by decide, C6_scancode.1 8 2 (by decide), C6_scancode.2.1 2,
    C6_scancode.2.2 0 3 5 (by decide) (by decide) (by decide)⟩

/-- C7: Multiplex read determinism.  The mk1 keypad read is a pure function of
the last-written data byte and the current key-line values (it reads no other
state and mutates nothing), so any two reads with the same key-line state
separated only by events that are not data-port writes return the same
value. -/
theorem C7_multiplex_determinism :
    (∀ (s s2 : MK1State) (key : Nat → Nat), s.digit_data = s2.digit_data →
        mk1_input_r s.digit_data key = mk1_input_r s2.digit_data key) ∧
    (∀ (evs : List MK1Ev) (s : MK1State), (∀ e ∈ evs, mk1_isDataW e = false) →
        (mk1_run s evs).digit_data = s.digit_data ∧
        ∀ key : Nat → Nat,
          mk1_input_r (mk1_run s evs).digit_data key = mk1_input_r s.digit_data key) := by
  refine ⟨?_, ?_⟩
  · intro s s2 key h
    rw [h]
  · intro evs s h
    have h2 := mk1_data_run evs s h
    exact ⟨h2, fun key => by rw [h2]⟩

/-- C7 witness: two reads across a select write, a blink toggle and a timer
firing (no data write) agree. -/
theorem C7_multiplex_determinism_witness :
    mk1_input_r (mk1_run mk1_init [.dataW 0 9]).digit_data (fun _ => 0)
      = mk1_input_r (mk1_run mk1_init [.selW 0 2, .dataW 3 9]).digit_data (fun _ => 0) ∧
    ((mk1_run (mk1_run mk1_init [.dataW 0 9]) [.selW 5 2, .blinkT 8, .fireDD 1]).digit_data
        = (mk1_run mk1_init [.dataW 0 9]).digit_data ∧
      mk1_input_r
        (mk1_run (mk1_run mk1_init [.dataW 0 9]) [.selW 5 2, .blinkT 8, .fireDD 1]).digit_data
        (fun i => i + 1)
      = mk1_input_r (mk1_run mk1_init [.dataW 0 9]).digit_data (fun i => i + 1)) := by
  refine ⟨?_, ?_, ?_⟩
  · exact C7_multiplex_determinism.1 _ _ (fun _ => 0) (by decide)
  · exact (C7_multiplex_determinism.2 [.selW 5 2, .blinkT 8, .fireDD 1] _ (by decide)).1
  · exact (C7_multiplex_determinism.2 [.selW 5 2, .blinkT 8, .fireDD 1] _ (by decide)).2
      (fun i => i + 1)

/-- C8 counterexample: the claim says asserting the reset line blanks all
digit outputs in the same step and forces the select mask to its all-inactive
sentinel.  In intellect02 the reset button is tied only to the CPU RESET pin:
on the valid run below digit 0 shows 0x41 and the select mask is 1, and both
are unchanged by the reset event, so the display is not blanked and no
sentinel is forced, refuting the claim for that driver. -/
theorem C8_counterexample :
    i02_runOk i02_init [.ctrl 0 1, .dig 5 65, .rstBtn 6] = true ∧
    (i02_run i02_init [.ctrl 0 1, .dig 5 65, .rstBtn 6]).out_digit 0 = 65 ∧
    (i02_run i02_init [.ctrl 0 1, .dig 5 65, .rstBtn 6]).led_select = 1 ∧
    (65 : Nat) ≠ 0 ∧ (1 : Nat) ≠ 0 := by decide

/-- C8 (amended): in the mk1/cmpchess driver, asserting reset forces the
select byte to the all-inactive sentinel 0xff and blanks all four digit
outputs in the same step, without cancelling pending deflicker timers, and
any pending timer firing afterwards keeps a blanked display blank (a harmless
no-op); in the intellect02 driver the reset button only asserts the CPU RESET
line and leaves the whole display state unchanged. -/
theorem C8_reset :
    (∀ (s : MK1State) (t : Nat),
        (mk1_step s (.rstOn t)).digit_select = 0xff ∧
        (∀ i, i < 4 → (mk1_step s (.rstOn t)).out_digit i = 0) ∧
        (mk1_step s (.rstOn t)).dd = s.dd) ∧
    (∀ (s : MK1State), (∀ j, j < 4 → s.out_digit j = 0) →
        ∀ (i j : Nat), j < 4 → (mk1_step s (.fireDD i)).out_digit j = 0) ∧
    (∀ (s : I02State) (t : Nat),
        (i02_step s (.rstBtn t)).out_digit = s.out_digit ∧
        (i02_step s (.rstBtn t)).out_led = s.out_led ∧
        (i02_step s (.rstBtn t)).led_select = s.led_select ∧
        (i02_step s (.rstBtn t)).led_active = s.led_active ∧
        (i02_step s (.rstBtn t)).digit_data = s.digit_data) := by
  refine ⟨?_, ?_, ?_⟩
  · intro s t
    refine ⟨rfl, ?_, rfl⟩
    intro i hi
    show (if i < 4 then 0 else s.out_digit i) = 0
    rw [if_pos hi]
  · intro s h i j hj
    exact mk1_fire_keep_blank s h i j hj
  · intro s t
    exact ⟨rfl, rfl, rfl, rfl, rfl⟩

/-- C8 witness: reset blanks a lit mk1 display and forces select to 0xff, a
subsequent timer firing keeps it blank, and an intellect02 reset leaves a lit
display untouched. -/
theorem C8_reset_witness :
    (mk1_step (mk1_run mk1_init [.dataW 0 9, .selW 3 0]) (.rstOn 5)).digit_select = 255 ∧
    (mk1_step (mk1_run mk1_init [.dataW 0 9, .selW 3 0]) (.rstOn 5)).out_digit 2 = 0 ∧
    (mk1_step (mk1_step (mk1_run mk1_init [.dataW 0 9, .selW 3 0]) (.rstOn 5))
      (.fireDD 0)).out_digit 1 = 0 ∧
    (i02_step (i02_run i02_init [.ctrl 0 1, .dig 5 65]) (.rstBtn 6)).out_digit
      = (i02_run i02_init [.ctrl 0 1, .dig 5 65]).out_digit := by
  refine ⟨?_, ?_, ?_, ?_⟩
  · exact (C8_reset.1 (mk1_run mk1_init [.dataW 0 9, .selW 3 0]) 5).1
  · exact (C8_reset.1 (mk1_run mk1_init [.dataW 0 9, .selW 3 0]) 5).2.1 2 (by decide)
  · exact C8_reset.2.1 _ (fun j hj => (C8_reset.1 (mk1_run mk1_init [.dataW 0 9, .selW 3 0]) 5).2.1 j hj)
      0 1 (by decide)
  · exact (C8_reset.2.2 (i02_run i02_init [.ctrl 0 1, .dig 5 65]) 6).1

/-- C9 counterexample: the claim says that in the dot-only variant every raw
value other than 1 decodes to the fixed permutation masked with 0x7f.  The
mk1 decode also depends on the blink phase: for raw value 3 with the blink
phase active the decoded output is 0 (all segments off), not
bitswap(3) &&& 0x7f = 0x20, refuting the claim as stated. -/
theorem C9_counterexample :
    (3 : Nat) ≠ 1 ∧ mk1_decode 3 true = 0 ∧
    bitswap8 3 0 2 1 3 4 5 6 7 &&& 0x7f = 0x20 ∧ (0 : Nat) ≠ 0x20 := by decide

/-- C9 (amended): both decoders are pure total functions applying a fixed bit
permutation.  In intellect02 the data write latches exactly the permuted
byte.  In mk1 the decoded digit value additionally depends on the blink
phase: when the blink phase is active and bit 0 of the raw byte is set the
output is 0 (the auto-blink special case); otherwise the reserved raw value 1
decodes to exactly the decimal-point mask 0x80, and every other raw value
passes through the permutation masked with 0x7f. -/
theorem C9_segment_decoder :
    (∀ (s : I02State) (t raw : Nat),
        (i02_step s (.dig t raw)).digit_data = bitswap8 raw 7 0 1 2 3 4 5 6) ∧
    (∀ (d : Nat) (b : Bool),
        mk1_decode d b =
          if b && d.testBit 0 then 0
          else if d = 1 then 0x80
          else bitswap8 d 0 2 1 3 4 5 6 7 &&& 0x7f) ∧
    mk1_decode 1 false = 0x80 := by
  refine ⟨?_, ?_, by decide⟩
  · intro s t raw
    rfl
  · intro d b
    show (bitswap8 d 0 2 1 3 4 5 6 7 &&&
        (if (b && d.testBit 0) = true then 0
         else if d = 1 then (0x80 : Nat) else 0x7f)) = _
    by_cases hb : (b && d.testBit 0) = true
    · rw [if_pos hb, if_pos hb, Nat.and_zero]
    · rw [if_neg hb, if_neg hb]
      by_cases hd : d = 1
      · subst hd
        rw [if_pos rfl, if_pos rfl]
        decide
      · rw [if_neg hd, if_neg hd]

/-- C10: the mk1 multiplexed read starts from the last-written data byte and
only ever ORs further bits in, so the result always contains every bit of the
written byte, and with no keys pressed it returns exactly the written byte. -/
theorem C10_input_superset :
    (∀ (d : Nat) (key : Nat → Nat), mk1_input_r d key &&& d = d) ∧
    (∀ d : Nat, mk1_input_r d (fun _ => 0) = d) :=
  ⟨fun d key => mk1_input_land d key, fun d => mk1_input_zero d⟩
